import Mathlib

/-!
Verification of the order transaction core of the DairyFarm backend
(`src/server/routes/products.js`, orders router, together with the SQL schema
`database schema` file): `placeOrder` (POST /api/orders/create),
`verifyPayment` (POST /api/orders/verify-payment), `cancelOrder`
(PUT /api/orders/:id/cancel) and the admin status update
(PUT /api/orders/admin/:id/status).

The database is embedded shallowly: each table is a list of rows, each SQL
statement of the route is a function on the database state, and each route
handler is a function returning the final committed state together with its
result.  A `rollback` is modelled by returning the initial state unchanged,
exactly mirroring the code's `connection.rollback()` on every error path.
Prices (DECIMAL(10,2)) are modelled as exact numbers (`Nat`, in minor units);
the `stock` column is a signed SQL INT and is modelled as `Int`.
-/

namespace DairyFarm

/-- payment_status ENUM of the `orders` table. -/
inductive PaymentStatus where
  | pending
  | completed
  | failed
  | refunded
  deriving DecidableEq, Repr

/-- order_status ENUM of the `orders` table. -/
inductive OrderStatus where
  | placed
  | confirmed
  | processing
  | shipped
  | delivered
  | cancelled
  deriving DecidableEq, Repr

/-- A row of the `products` table (columns used by the order core). -/
structure Product where
  product_id : Nat
  name : String
  price : Nat
  stock : Int
  is_active : Bool
  deriving DecidableEq, Repr

/-- A row of the `orders` table (columns used by the order core). -/
structure Order where
  order_id : Nat
  user_id : Nat
  total_amount : Nat
  payment_status : PaymentStatus
  payment_id : Option String
  order_status : OrderStatus
  delivery_address : String
  phone : String
  deriving DecidableEq, Repr

/-- A row of the `order_items` table. -/
structure OrderItem where
  order_id : Nat
  product_id : Nat
  quantity : Nat
  price : Nat
  deriving DecidableEq, Repr

/-- One entry of the request body's `items` array. -/
structure CartItem where
  product_id : Nat
  quantity : Nat
  deriving DecidableEq, Repr

/-- The database state: the three tables of the order core plus the
AUTO_INCREMENT counter of `orders.order_id`. -/
structure DB where
  products : List Product
  orders : List Order
  order_items : List OrderItem
  nextOrderId : Nat
  deriving DecidableEq, Repr

/-- Errors of POST /api/orders/create (400-responses and the gateway failure
caught by the catch-all). -/
inductive OrderError where
  | productNotFound (product_id : Nat)
  | insufficientStock (name : String)
  | gatewayUnavailable
  deriving DecidableEq, Repr

/-- Errors of PUT /api/orders/:id/cancel. -/
inductive CancelError where
  | orderNotFound
  | invalidState
  deriving DecidableEq, Repr

/-- Result of POST /api/orders/verify-payment. -/
inductive VerifyResult where
  | success
  | invalidSignature
  deriving DecidableEq, Repr

/-- One element of the `orderItems` array accumulated by the validation loop
of the create-order handler. -/
structure PendingItem where
  product_id : Nat
  quantity : Nat
  price : Nat
  name : String
  deriving DecidableEq, Repr

/-- The success payload of POST /api/orders/create. -/
structure PlaceOrderResult where
  order_id : Nat
  total_amount : Nat
  items : List PendingItem
  deriving DecidableEq, Repr

/-- SELECT ... FROM products WHERE product_id = ? AND is_active = true. -/
def findActiveProduct (ps : List Product) (pid : Nat) : Option Product :=
  ps.find? (fun p => p.product_id == pid && p.is_active)

/-- UPDATE products SET stock = stock - ? WHERE product_id = ?  (the
decrement of the create-order handler; note: no stock condition in the
statement). -/
def decrementStock (quantity pid : Nat) (db : DB) : DB :=
  { db with products := db.products.map (fun p =>
      if p.product_id == pid then { p with stock := p.stock - (quantity : Int) } else p) }

/-- UPDATE products SET stock = stock + ? WHERE product_id = ?  (the stock
restore of the cancel handler). -/
def incrementStock (quantity pid : Nat) (db : DB) : DB :=
  { db with products := db.products.map (fun p =>
      if p.product_id == pid then { p with stock := p.stock + (quantity : Int) } else p) }

/-- Modelled from the spec (§4.1 step 6), for comparison with the source's
`decrementStock`: a decrement conditioned on `stock >= quantity` as part of
the update itself, i.e. UPDATE ... SET stock = stock - ? WHERE product_id = ?
AND stock >= ?. -/
def decrementStockConditionalSpec (quantity pid : Nat) (db : DB) : DB :=
  { db with products := db.products.map (fun p =>
      if p.product_id == pid && (quantity : Int) ≤ p.stock then
        { p with stock := p.stock - (quantity : Int) }
      else p) }

/-- INSERT INTO orders (user_id, total_amount, delivery_address, phone):
the remaining columns take the schema defaults payment_status='pending',
payment_id=NULL, order_status='placed'. -/
def insertOrder (userId totalAmount : Nat) (deliveryAddress ph : String) (db : DB) : DB :=
  { db with
    orders := db.orders ++
      [{ order_id := db.nextOrderId, user_id := userId, total_amount := totalAmount,
         payment_status := .pending, payment_id := none, order_status := .placed,
         delivery_address := deliveryAddress, phone := ph }],
    nextOrderId := db.nextOrderId + 1 }

/-- INSERT INTO order_items (order_id, product_id, quantity, price). -/
def insertOrderItem (orderId : Nat) (oi : PendingItem) (db : DB) : DB :=
  { db with order_items := db.order_items ++
      [{ order_id := orderId, product_id := oi.product_id,
         quantity := oi.quantity, price := oi.price }] }

/-- UPDATE orders SET order_status = ? WHERE order_id = ?. -/
def setOrderStatus (orderId : Nat) (st : OrderStatus) (db : DB) : DB :=
  { db with orders := db.orders.map (fun o =>
      if o.order_id == orderId then { o with order_status := st } else o) }

/-- SELECT * FROM orders WHERE order_id = ? AND user_id = ?. -/
def findOrder (db : DB) (orderId userId : Nat) : Option Order :=
  db.orders.find? (fun o => o.order_id == orderId && o.user_id == userId)

/-- SELECT product_id, quantity FROM order_items WHERE order_id = ?. -/
def orderItemsOf (db : DB) (orderId : Nat) : List OrderItem :=
  db.order_items.filter (fun oi => oi.order_id == orderId)

/-- The validation loop of the create-order handler: for each cart item,
read the active product row (its reads all happen before any write of the
transaction, hence against the initial state), fail `ProductNotFound` on a
missing or inactive product, fail `InsufficientStock` when
`productData.stock < item.quantity`, and otherwise record the pending order
item with the price read from the row (frozen price). -/
def buildOrderItems (ps : List Product) : List CartItem → Except OrderError (List PendingItem)
  | [] => .ok []
  | item :: rest =>
    match findActiveProduct ps item.product_id with
    | none => .error (.productNotFound item.product_id)
    | some productData =>
      if productData.stock < (item.quantity : Int) then
        .error (.insufficientStock productData.name)
      else
        match buildOrderItems ps rest with
        | .error e => .error e
        | .ok tail =>
          .ok ({ product_id := item.product_id, quantity := item.quantity,
                 price := productData.price, name := productData.name } :: tail)

/-- `totalAmount` as accumulated by the validation loop:
`itemTotal = productData.price * item.quantity`. -/
def orderTotal (ois : List PendingItem) : Nat :=
  (ois.map (fun oi => oi.price * oi.quantity)).sum

/-- The insert-items-and-update-stock loop of the create-order handler. -/
def applyOrderItems (orderId : Nat) (ois : List PendingItem) (db : DB) : DB :=
  ois.foldl (fun d oi => decrementStock oi.quantity oi.product_id (insertOrderItem orderId oi d)) db

/-- POST /api/orders/create.  `gateway` abstracts `razorpay.orders.create`:
it is given the computed total amount and reports whether intent creation
succeeded; on failure the thrown error reaches the catch-all, which rolls the
transaction back (modelled by returning the initial state). -/
def placeOrder (gateway : Nat → Bool) (userId : Nat) (items : List CartItem)
    (deliveryAddress ph : String) (db : DB) : DB × Except OrderError PlaceOrderResult :=
  match buildOrderItems db.products items with
  | .error e => (db, .error e)
  | .ok orderItems =>
    let totalAmount := orderTotal orderItems
    let orderId := db.nextOrderId
    let db1 := insertOrder userId totalAmount deliveryAddress ph db
    let db2 := applyOrderItems orderId orderItems db1
    if gateway totalAmount then
      (db2, .ok { order_id := orderId, total_amount := totalAmount, items := orderItems })
    else
      (db, .error .gatewayUnavailable)

/-- The string the verify-payment handler signs:
`razorpay_order_id + '|' + razorpay_payment_id`. -/
def verifySignatureBody (razorpayOrderId razorpayPaymentId : String) : String :=
  razorpayOrderId ++ "|" ++ razorpayPaymentId

/-- Row effect of
UPDATE orders SET payment_status='completed', payment_id=?,
order_status='confirmed' WHERE order_id = ? AND user_id = ?. -/
def confirmPaymentRow (razorpayPaymentId : String) (orderId userId : Nat) (o : Order) :
    Order :=
  if o.order_id == orderId && o.user_id == userId then
    { o with payment_status := .completed, payment_id := some razorpayPaymentId,
             order_status := .confirmed }
  else o

/-- The ownership-scoped payment-confirmation UPDATE of the verify-payment
handler. -/
def confirmPayment (razorpayPaymentId : String) (orderId userId : Nat) (db : DB) : DB :=
  { db with orders := db.orders.map (confirmPaymentRow razorpayPaymentId orderId userId) }

/-- POST /api/orders/verify-payment.  `hmacSha256 secret message` abstracts
`crypto.createHmac('sha256', secret).update(message).digest('hex')`.  On
signature match the handler runs the `confirmPayment` statement and
unconditionally reports success. -/
def verifyPayment (hmacSha256 : String → String → String) (secret : String)
    (userId : Nat) (razorpayOrderId razorpayPaymentId razorpaySignature : String)
    (orderId : Nat) (db : DB) : DB × VerifyResult :=
  let expectedSignature := hmacSha256 secret (verifySignatureBody razorpayOrderId razorpayPaymentId)
  if expectedSignature ≠ razorpaySignature then
    (db, .invalidSignature)
  else
    (confirmPayment razorpayPaymentId orderId userId db, .success)

/-- The restore-stock loop of the cancel handler. -/
def restoreStock (itemsList : List OrderItem) (db : DB) : DB :=
  itemsList.foldl (fun d it => incrementStock it.quantity it.product_id d) db

/-- PUT /api/orders/:id/cancel. -/
def cancelOrder (orderId userId : Nat) (db : DB) : DB × Except CancelError Unit :=
  match findOrder db orderId userId with
  | none => (db, .error .orderNotFound)
  | some orderData =>
    if orderData.order_status = .placed ∨ orderData.order_status = .confirmed then
      let db1 := restoreStock (orderItemsOf db orderId) db
      let db2 := setOrderStatus orderId .cancelled db1
      (db2, .ok ())
    else
      (db, .error .invalidState)

/-- PUT /api/orders/admin/:id/status: UPDATE orders SET order_status = ?
WHERE order_id = ?; reports not-found when no row matches. -/
def adminUpdateStatus (orderId : Nat) (st : OrderStatus) (db : DB) : DB × Bool :=
  (setOrderStatus orderId st db, db.orders.any (fun o => o.order_id == orderId))

/-- Observer: the stock of the product row with the given id. -/
def stockOf (db : DB) (pid : Nat) : Option Int :=
  (db.products.find? (fun p => p.product_id == pid)).map (fun p => p.stock)

/-- Observer: the payment_status of the order row with the given id. -/
def payStatusOf (db : DB) (oid : Nat) : Option PaymentStatus :=
  (db.orders.find? (fun o => o.order_id == oid)).map (fun o => o.payment_status)

/-- Observer: the order_status of the order row with the given id. -/
def orderStatusOf (db : DB) (oid : Nat) : Option OrderStatus :=
  (db.orders.find? (fun o => o.order_id == oid)).map (fun o => o.order_status)

/-- Total quantity a cart orders of one product (summed over duplicate
lines). -/
def qtyFor (items : List CartItem) (pid : Nat) : Nat :=
  ((items.filter (fun it => it.product_id == pid)).map (fun it => it.quantity)).sum

/-- Total quantity of one product among pending order items. -/
def qtyForOI (ois : List PendingItem) (pid : Nat) : Nat :=
  ((ois.filter (fun oi => oi.product_id == pid)).map (fun oi => oi.quantity)).sum

/-- Total quantity of one product among order-item rows. -/
def qtyForRows (rows : List OrderItem) (pid : Nat) : Nat :=
  ((rows.filter (fun oi => oi.product_id == pid)).map (fun oi => oi.quantity)).sum

/-- Finding a product by id commutes with mapping a row function that
preserves `product_id`. -/
theorem find_map_prodkey (g : Product → Product) (hg : ∀ p, (g p).product_id = p.product_id)
    (l : List Product) (pid : Nat) :
    (l.map g).find? (fun p => p.product_id == pid) =
      (l.find? (fun p => p.product_id == pid)).map g := by
  rw [List.find?_map]
  have hcomp : ((fun p : Product => p.product_id == pid) ∘ g) =
      (fun p : Product => p.product_id == pid) := by
    funext p
    simp [Function.comp, hg]
  rw [hcomp]

/-- Finding an order by id commutes with mapping a row function that
preserves `order_id`. -/
theorem find_map_orderkey (g : Order → Order) (hg : ∀ o, (g o).order_id = o.order_id)
    (l : List Order) (oid : Nat) :
    (l.map g).find? (fun o => o.order_id == oid) =
      (l.find? (fun o => o.order_id == oid)).map g := by
  rw [List.find?_map]
  have hcomp : ((fun o : Order => o.order_id == oid) ∘ g) =
      (fun o : Order => o.order_id == oid) := by
    funext o
    simp [Function.comp, hg]
  rw [hcomp]

theorem orders_decrementStock (q pid : Nat) (db : DB) :
    (decrementStock q pid db).orders = db.orders := rfl

theorem order_items_decrementStock (q pid : Nat) (db : DB) :
    (decrementStock q pid db).order_items = db.order_items := rfl

theorem orders_incrementStock (q pid : Nat) (db : DB) :
    (incrementStock q pid db).orders = db.orders := rfl

theorem order_items_incrementStock (q pid : Nat) (db : DB) :
    (incrementStock q pid db).order_items = db.order_items := rfl

theorem products_insertOrder (u t : Nat) (a ph : String) (db : DB) :
    (insertOrder u t a ph db).products = db.products := rfl

theorem order_items_insertOrder (u t : Nat) (a ph : String) (db : DB) :
    (insertOrder u t a ph db).order_items = db.order_items := rfl

theorem products_insertOrderItem (oid : Nat) (oi : PendingItem) (db : DB) :
    (insertOrderItem oid oi db).products = db.products := rfl

theorem orders_insertOrderItem (oid : Nat) (oi : PendingItem) (db : DB) :
    (insertOrderItem oid oi db).orders = db.orders := rfl

theorem products_setOrderStatus (oid : Nat) (st : OrderStatus) (db : DB) :
    (setOrderStatus oid st db).products = db.products := rfl

theorem order_items_setOrderStatus (oid : Nat) (st : OrderStatus) (db : DB) :
    (setOrderStatus oid st db).order_items = db.order_items := rfl

/-- Effect of the source's unconditional decrement statement on observed
stock: the matching row is decremented with no stock condition. -/
theorem stockOf_decrementStock (q pid0 pid : Nat) (db : DB) :
    stockOf (decrementStock q pid0 db) pid =
      if pid = pid0 then (stockOf db pid).map (fun s => s - (q : Int))
      else stockOf db pid := by
  unfold stockOf decrementStock
  rw [find_map_prodkey _ (fun p => by by_cases h : p.product_id == pid0 <;> simp [h])]
  cases hf : db.products.find? (fun p => p.product_id == pid) with
  | none => by_cases h : pid = pid0 <;> simp
  | some r =>
    have hr : r.product_id = pid := by simpa using List.find?_some hf
    by_cases h : pid = pid0
    · simp [hr, h]
    · simp [hr, h]

/-- Effect of the cancel handler's increment statement on observed stock. -/
theorem stockOf_incrementStock (q pid0 pid : Nat) (db : DB) :
    stockOf (incrementStock q pid0 db) pid =
      if pid = pid0 then (stockOf db pid).map (fun s => s + (q : Int))
      else stockOf db pid := by
  unfold stockOf incrementStock
  rw [find_map_prodkey _ (fun p => by by_cases h : p.product_id == pid0 <;> simp [h])]
  cases hf : db.products.find? (fun p => p.product_id == pid) with
  | none => by_cases h : pid = pid0 <;> simp
  | some r =>
    have hr : r.product_id = pid := by simpa using List.find?_some hf
    by_cases h : pid = pid0
    · simp [hr, h]
    · simp [hr, h]

theorem stockOf_insertOrder (u t : Nat) (a ph : String) (db : DB) (pid : Nat) :
    stockOf (insertOrder u t a ph db) pid = stockOf db pid := rfl

theorem stockOf_insertOrderItem (oid : Nat) (oi : PendingItem) (db : DB) (pid : Nat) :
    stockOf (insertOrderItem oid oi db) pid = stockOf db pid := rfl

theorem restoreStock_cons (it : OrderItem) (rest : List OrderItem) (db : DB) :
    restoreStock (it :: rest) db =
      restoreStock rest (incrementStock it.quantity it.product_id db) := rfl

theorem orders_restoreStock (its : List OrderItem) (db : DB) :
    (restoreStock its db).orders = db.orders := by
  induction its generalizing db with
  | nil => rfl
  | cons it rest ih => rw [restoreStock_cons, ih, orders_incrementStock]

theorem order_items_restoreStock (its : List OrderItem) (db : DB) :
    (restoreStock its db).order_items = db.order_items := by
  induction its generalizing db with
  | nil => rfl
  | cons it rest ih => rw [restoreStock_cons, ih, order_items_incrementStock]

theorem nextOrderId_restoreStock (its : List OrderItem) (db : DB) :
    (restoreStock its db).nextOrderId = db.nextOrderId := by
  induction its generalizing db with
  | nil => rfl
  | cons it rest ih => rw [restoreStock_cons, ih]; rfl

theorem qtyForRows_cons (it : OrderItem) (rest : List OrderItem) (pid : Nat) :
    qtyForRows (it :: rest) pid =
      (if it.product_id = pid then it.quantity else 0) + qtyForRows rest pid := by
  unfold qtyForRows
  by_cases h : it.product_id = pid
  · rw [List.filter_cons_of_pos (by simpa using h)]
    simp [h]
  · rw [List.filter_cons_of_neg (by simpa using h)]
    simp [h]

/-- The restore loop credits each product with the summed quantities of the
given rows. -/
theorem stockOf_restoreStock (its : List OrderItem) (db : DB) (pid : Nat) :
    stockOf (restoreStock its db) pid =
      (stockOf db pid).map (fun s => s + (qtyForRows its pid : Int)) := by
  induction its generalizing db with
  | nil =>
    rw [show restoreStock [] db = db from rfl]
    cases h : stockOf db pid <;> simp [qtyForRows, h]
  | cons it rest ih =>
    rw [restoreStock_cons, ih, stockOf_incrementStock]
    by_cases h : pid = it.product_id
    · have hq : qtyForRows (it :: rest) pid = it.quantity + qtyForRows rest pid := by
        rw [qtyForRows_cons, if_pos h.symm]
      rw [hq, if_pos h]
      cases hs : stockOf db pid with
      | none => rfl
      | some s =>
        simp only [Option.map_some', Option.some.injEq]
        push_cast
        ring
    · have hq : qtyForRows (it :: rest) pid = qtyForRows rest pid := by
        rw [qtyForRows_cons, if_neg (fun hc => h hc.symm)]
        simp
      rw [hq, if_neg h]

theorem applyOrderItems_cons (orderId : Nat) (oi : PendingItem) (rest : List PendingItem)
    (db : DB) :
    applyOrderItems orderId (oi :: rest) db =
      applyOrderItems orderId rest
        (decrementStock oi.quantity oi.product_id (insertOrderItem orderId oi db)) := rfl

theorem orders_applyOrderItems (orderId : Nat) (ois : List PendingItem) (db : DB) :
    (applyOrderItems orderId ois db).orders = db.orders := by
  induction ois generalizing db with
  | nil => rfl
  | cons oi rest ih =>
    rw [applyOrderItems_cons, ih, orders_decrementStock, orders_insertOrderItem]

theorem nextOrderId_applyOrderItems (orderId : Nat) (ois : List PendingItem) (db : DB) :
    (applyOrderItems orderId ois db).nextOrderId = db.nextOrderId := by
  induction ois generalizing db with
  | nil => rfl
  | cons oi rest ih => rw [applyOrderItems_cons, ih]; rfl

/-- The row inserted into `order_items` for one pending item. -/
def toItemRow (orderId : Nat) (oi : PendingItem) : OrderItem :=
  { order_id := orderId, product_id := oi.product_id, quantity := oi.quantity, price := oi.price }

theorem order_items_applyOrderItems (orderId : Nat) (ois : List PendingItem) (db : DB) :
    (applyOrderItems orderId ois db).order_items =
      db.order_items ++ ois.map (toItemRow orderId) := by
  induction ois generalizing db with
  | nil => simp [applyOrderItems]
  | cons oi rest ih =>
    rw [applyOrderItems_cons, ih, order_items_decrementStock]
    simp [insertOrderItem, toItemRow]

theorem qtyForOI_cons (oi : PendingItem) (rest : List PendingItem) (pid : Nat) :
    qtyForOI (oi :: rest) pid =
      (if oi.product_id = pid then oi.quantity else 0) + qtyForOI rest pid := by
  unfold qtyForOI
  by_cases h : oi.product_id = pid
  · rw [List.filter_cons_of_pos (by simpa using h)]
    simp [h]
  · rw [List.filter_cons_of_neg (by simpa using h)]
    simp [h]

/-- The create-order item loop debits each product by the summed ordered
quantities (unconditionally). -/
theorem stockOf_applyOrderItems (orderId : Nat) (ois : List PendingItem) (db : DB) (pid : Nat) :
    stockOf (applyOrderItems orderId ois db) pid =
      (stockOf db pid).map (fun s => s - (qtyForOI ois pid : Int)) := by
  induction ois generalizing db with
  | nil =>
    rw [show applyOrderItems orderId [] db = db from rfl]
    cases h : stockOf db pid <;> simp [qtyForOI, h]
  | cons oi rest ih =>
    rw [applyOrderItems_cons, ih, stockOf_decrementStock, stockOf_insertOrderItem]
    by_cases h : pid = oi.product_id
    · have hq : qtyForOI (oi :: rest) pid = oi.quantity + qtyForOI rest pid := by
        rw [qtyForOI_cons, if_pos h.symm]
      rw [hq, if_pos h]
      cases hs : stockOf db pid with
      | none => rfl
      | some s =>
        simp only [Option.map_some', Option.some.injEq]
        push_cast
        ring
    · have hq : qtyForOI (oi :: rest) pid = qtyForOI rest pid := by
        rw [qtyForOI_cons, if_neg (fun hc => h hc.symm)]
        simp
      rw [hq, if_neg h]

/-- Pointwise relation between a cart line and the pending item the
validation loop builds for it: same product and quantity, and the price
frozen from the product row read at call time. -/
def LineSpec (ps : List Product) (it : CartItem) (oi : PendingItem) : Prop :=
  oi.product_id = it.product_id ∧ oi.quantity = it.quantity ∧
    ∃ p, findActiveProduct ps it.product_id = some p ∧ oi.price = p.price ∧ oi.name = p.name

/-- When every cart line references an active product with sufficient stock,
the validation loop succeeds and produces one pending item per cart line,
in order, with the frozen price. -/
theorem buildOrderItems_ok_of_valid (ps : List Product) (items : List CartItem)
    (h : ∀ it ∈ items, ∃ p, findActiveProduct ps it.product_id = some p ∧
        (it.quantity : Int) ≤ p.stock) :
    ∃ ois, buildOrderItems ps items = .ok ois ∧ List.Forall₂ (LineSpec ps) items ois := by
  induction items with
  | nil => exact ⟨[], rfl, List.Forall₂.nil⟩
  | cons item rest ih =>
    obtain ⟨p, hp, hstock⟩ := h item (List.mem_cons_self item rest)
    obtain ⟨tail, htail, hrel⟩ := ih (fun it hit => h it (List.mem_cons_of_mem item hit))
    refine ⟨{ product_id := item.product_id, quantity := item.quantity,
              price := p.price, name := p.name } :: tail, ?_, ?_⟩
    · simp only [buildOrderItems, hp]
      rw [if_neg (not_lt.mpr hstock), htail]
    · exact List.Forall₂.cons ⟨rfl, rfl, p, hp, rfl, rfl⟩ hrel

/-- Related carts and pending-item lists order the same total quantity of
every product. -/
theorem qtyForOI_eq_qtyFor (ps : List Product) (items : List CartItem)
    (ois : List PendingItem) (hrel : List.Forall₂ (LineSpec ps) items ois) (pid : Nat) :
    qtyForOI ois pid = qtyFor items pid := by
  induction hrel with
  | nil => rfl
  | cons hl hrest ih =>
    rename_i it oi itemsR oisR
    obtain ⟨hpid, hqty, -⟩ := hl
    rw [qtyForOI_cons, ih]
    unfold qtyFor
    by_cases h : it.product_id = pid
    · rw [List.filter_cons_of_pos (by simpa using h)]
      have : oi.product_id = pid := by rw [hpid, h]
      simp [this, hqty, qtyFor]
    · have : ¬ oi.product_id = pid := by rw [hpid]; exact h
      rw [List.filter_cons_of_neg (by simpa using h)]
      simp [this, qtyFor]

/-- The accumulated `totalAmount` is exactly the sum of quantity × price
over the pending items (the code multiplies price by quantity). -/
theorem orderTotal_eq_sum_qty_mul_price (ois : List PendingItem) :
    orderTotal ois = (ois.map (fun oi => oi.quantity * oi.price)).sum := by
  unfold orderTotal
  induction ois with
  | nil => rfl
  | cons oi rest ih => simp [ih, Nat.mul_comm]

/-- Quantities credited back for the rows inserted by the item loop. -/
theorem qtyForRows_map_toItemRow (orderId : Nat) (ois : List PendingItem) (pid : Nat) :
    qtyForRows (ois.map (toItemRow orderId)) pid = qtyForOI ois pid := by
  induction ois with
  | nil => rfl
  | cons oi rest ih =>
    rw [List.map_cons, qtyForRows_cons, qtyForOI_cons, ih, toItemRow]

theorem payStatusOf_setOrderStatus (oid0 : Nat) (st : OrderStatus) (db : DB) (oid : Nat) :
    payStatusOf (setOrderStatus oid0 st db) oid = payStatusOf db oid := by
  unfold payStatusOf setOrderStatus
  rw [find_map_orderkey _ (fun o => by by_cases h : o.order_id == oid0 <;> simp [h])]
  cases hf : db.orders.find? (fun o => o.order_id == oid) with
  | none => rfl
  | some r => by_cases h : r.order_id = oid0 <;> simp [h]

theorem payStatusOf_restoreStock (its : List OrderItem) (db : DB) (oid : Nat) :
    payStatusOf (restoreStock its db) oid = payStatusOf db oid := by
  unfold payStatusOf
  rw [orders_restoreStock]

theorem orderStatusOf_restoreStock (its : List OrderItem) (db : DB) (oid : Nat) :
    orderStatusOf (restoreStock its db) oid = orderStatusOf db oid := by
  unfold orderStatusOf
  rw [orders_restoreStock]

/-- Setting the status of an order that exists is observed by
`orderStatusOf`. -/
theorem orderStatusOf_setOrderStatus_self (oid : Nat) (st : OrderStatus) (db : DB)
    (hex : ∃ o ∈ db.orders, o.order_id = oid) :
    orderStatusOf (setOrderStatus oid st db) oid = some st := by
  unfold orderStatusOf setOrderStatus
  rw [find_map_orderkey _ (fun o => by by_cases h : o.order_id == oid <;> simp [h])]
  cases hf : db.orders.find? (fun o => o.order_id == oid) with
  | none =>
    obtain ⟨o, ho, hoid⟩ := hex
    rw [List.find?_eq_none] at hf
    exact absurd (by simpa using hoid) (hf o ho)
  | some r =>
    have hr : r.order_id = oid := by simpa using List.find?_some hf
    simp [hr]

/-- Successful run of the create-order handler: validation passed and the
gateway accepted the intent, so the working state is committed. -/
theorem placeOrder_ok (gateway : Nat → Bool) (userId : Nat) (items : List CartItem)
    (a ph : String) (db : DB) (ois : List PendingItem)
    (hb : buildOrderItems db.products items = .ok ois)
    (hg : gateway (orderTotal ois) = true) :
    placeOrder gateway userId items a ph db =
      (applyOrderItems db.nextOrderId ois (insertOrder userId (orderTotal ois) a ph db),
       .ok { order_id := db.nextOrderId, total_amount := orderTotal ois, items := ois }) := by
  simp only [placeOrder, hb]
  rw [if_pos hg]

/-- Cancellable path of the cancel handler: the order is found and in a
cancellable state, so stock is restored and the status set. -/
theorem cancelOrder_ok (oid uid : Nat) (db : DB) (o : Order)
    (hf : findOrder db oid uid = some o)
    (hst : o.order_status = .placed ∨ o.order_status = .confirmed) :
    cancelOrder oid uid db =
      (setOrderStatus oid .cancelled (restoreStock (orderItemsOf db oid) db), .ok ()) := by
  simp only [cancelOrder, hf]
  rw [if_pos hst]

/-- Product with stock 5, as in the spec scenario. -/
def dbC1 : DB :=
  { products := [{ product_id := 7, name := "Fresh Cow Milk", price := 60, stock := 5,
                   is_active := true }],
    orders := [], order_items := [], nextOrderId := 1 }

/-- Product with stock 2, insufficient for quantity 3. -/
def dbC1low : DB :=
  { products := [{ product_id := 7, name := "Fresh Cow Milk", price := 60, stock := 2,
                   is_active := true }],
    orders := [], order_items := [], nextOrderId := 1 }

/-- C1: the claim that the per-line stock decrement only happens under a
`stock >= quantity` condition carried by the update itself is false of the
code.  Concretely, a cart repeating product 7 (stock 5) with quantity 3
twice passes the per-line validation reads, the order succeeds, and the
second decrement fires although stock has dropped to 2 < 3, leaving stock
-1 — impossible under a conditional decrement, which would leave stock 2
(shown on the isolated statement: `decrementStock` at stock 2 decrements to
-1 while the spec's conditional form leaves 2). -/
theorem C1_counterexample :
    (placeOrder (fun _ => true) 1 [⟨7, 3⟩, ⟨7, 3⟩] "Village Road, Pune 411001" "9876543210"
        dbC1).2 =
      .ok { order_id := 1, total_amount := 360,
            items := [⟨7, 3, 60, "Fresh Cow Milk"⟩, ⟨7, 3, 60, "Fresh Cow Milk"⟩] } ∧
    stockOf (placeOrder (fun _ => true) 1 [⟨7, 3⟩, ⟨7, 3⟩] "Village Road, Pune 411001"
        "9876543210" dbC1).1 7 = some (-1) ∧
    stockOf (decrementStock 3 7 dbC1low) 7 = some (-1) ∧
    stockOf (decrementStockConditionalSpec 3 7 dbC1low) 7 = some 2 := by
  refine ⟨rfl, ?_, ?_, ?_⟩ <;> decide

/-- C1 (amended): the per-line stock decrement of placeOrder is an
unconditional update filtered only by product_id — it subtracts the
quantity from the matching row whether or not `stock >= quantity` holds;
the `stock >= quantity` check is only a prior read: the validation loop
fails with InsufficientStock when the row read for a line has
stock < quantity. -/
theorem C1_decrement_unconditional :
    (∀ (q pid0 : Nat) (db : DB) (pid : Nat),
      stockOf (decrementStock q pid0 db) pid =
        if pid = pid0 then (stockOf db pid).map (fun s => s - (q : Int))
        else stockOf db pid) ∧
    (∀ (ps : List Product) (item : CartItem) (rest : List CartItem) (p : Product),
      findActiveProduct ps item.product_id = some p →
      p.stock < (item.quantity : Int) →
      buildOrderItems ps (item :: rest) = .error (.insufficientStock p.name)) := by
  constructor
  · exact fun q pid0 db pid => stockOf_decrementStock q pid0 pid db
  · intro ps item rest p hp hlt
    simp only [buildOrderItems, hp]
    rw [if_pos hlt]

/-- C1 witness: the amended statement evaluated at product 7 with stock 2
and a line of quantity 3. -/
theorem C1_witness :
    stockOf (decrementStock 3 7 dbC1low) 7 =
      (stockOf dbC1low 7).map (fun s => s - (3 : Int)) ∧
    buildOrderItems dbC1low.products [⟨7, 3⟩] =
      .error (.insufficientStock "Fresh Cow Milk") := by
  constructor
  · rw [C1_decrement_unconditional.1 3 7 dbC1low 7]
    decide
  · exact C1_decrement_unconditional.2 dbC1low.products ⟨7, 3⟩ []
      ⟨7, "Fresh Cow Milk", 60, 2, true⟩ (by decide) (by decide)

/-- C2: every failing run of placeOrder — ProductNotFound or
InsufficientStock from validation, or GatewayUnavailable from intent
creation — leaves the committed state exactly as it was (full rollback);
and whenever validation succeeds but the gateway call fails, the run
reports GatewayUnavailable (commit happens only after gateway success). -/
theorem C2_failure_rollback :
    ∀ (gateway : Nat → Bool) (userId : Nat) (items : List CartItem) (a ph : String) (db : DB),
    (∀ e, (placeOrder gateway userId items a ph db).2 = .error e →
        (placeOrder gateway userId items a ph db).1 = db) ∧
    (∀ ois, buildOrderItems db.products items = .ok ois →
        gateway (orderTotal ois) = false →
        (placeOrder gateway userId items a ph db).2 = .error .gatewayUnavailable) := by
  intro gateway userId items a ph db
  constructor
  · intro e he
    cases hb : buildOrderItems db.products items with
    | error e2 => simp only [placeOrder, hb]
    | ok ois =>
      simp only [placeOrder, hb] at he ⊢
      by_cases hg : gateway (orderTotal ois) = true
      · rw [if_pos hg] at he
        exact absurd he (by simp)
      · rw [if_neg hg]
  · intro ois hb hg
    simp only [placeOrder, hb]
    rw [if_neg (by simp [hg])]

/-- C2 witness: the InsufficientStock run on stock 2 with quantity 3 leaves
the database unchanged. -/
theorem C2_witness :
    (placeOrder (fun _ => true) 1 [⟨7, 3⟩] "Village Road, Pune 411001" "9876543210"
        dbC1low).1 = dbC1low :=
  (C2_failure_rollback (fun _ => true) 1 [⟨7, 3⟩] "Village Road, Pune 411001" "9876543210"
      dbC1low).1 (.insufficientStock "Fresh Cow Milk") rfl

/-- C3: on a valid cart (every referenced product active with
stock >= quantity) and an available gateway, placeOrder succeeds, appends
exactly one order row with payment_status=pending and order_status=placed
whose total_amount is the sum of quantity × price over the created line
items, appends one line item per cart entry whose price is the product
price read at call time (via `LineSpec`), and debits each product's stock
by exactly the total ordered quantity. -/
theorem C3_placeOrder_success :
    ∀ (gateway : Nat → Bool) (userId : Nat) (items : List CartItem) (a ph : String) (db : DB),
    (∀ it ∈ items, ∃ p, findActiveProduct db.products it.product_id = some p ∧
        (it.quantity : Int) ≤ p.stock) →
    (∀ n, gateway n = true) →
    ∃ ois, buildOrderItems db.products items = .ok ois ∧
      List.Forall₂ (LineSpec db.products) items ois ∧
      (placeOrder gateway userId items a ph db).2 =
        .ok { order_id := db.nextOrderId, total_amount := orderTotal ois, items := ois } ∧
      (placeOrder gateway userId items a ph db).1.orders = db.orders ++
        [{ order_id := db.nextOrderId, user_id := userId, total_amount := orderTotal ois,
           payment_status := .pending, payment_id := none, order_status := .placed,
           delivery_address := a, phone := ph }] ∧
      (placeOrder gateway userId items a ph db).1.order_items =
        db.order_items ++ ois.map (toItemRow db.nextOrderId) ∧
      orderTotal ois = (ois.map (fun oi => oi.quantity * oi.price)).sum ∧
      (∀ pid, stockOf (placeOrder gateway userId items a ph db).1 pid =
        (stockOf db pid).map (fun s => s - (qtyFor items pid : Int))) := by
  intro gateway userId items a ph db hvalid hgw
  obtain ⟨ois, hb, hrel⟩ := buildOrderItems_ok_of_valid db.products items hvalid
  have hres := placeOrder_ok gateway userId items a ph db ois hb (hgw _)
  refine ⟨ois, hb, hrel, ?_, ?_, ?_, orderTotal_eq_sum_qty_mul_price ois, ?_⟩
  · rw [hres]
  · simp only [hres]
    rw [orders_applyOrderItems]
    rfl
  · simp only [hres]
    rw [order_items_applyOrderItems, order_items_insertOrder]
  · intro pid
    simp only [hres]
    rw [stockOf_applyOrderItems, stockOf_insertOrder,
      qtyForOI_eq_qtyFor db.products items ois hrel pid]

/-- C3 witness: the spec's scenario — cart [{productId 7, quantity 3}]
against product 7 with stock 5 and price 60. -/
theorem C3_witness :
    ∃ ois, buildOrderItems dbC1.products [(⟨7, 3⟩ : CartItem)] = .ok ois ∧
      List.Forall₂ (LineSpec dbC1.products) [(⟨7, 3⟩ : CartItem)] ois ∧
      (placeOrder (fun _ => true) 1 [⟨7, 3⟩] "Village Road, Pune 411001" "9876543210"
          dbC1).2 =
        .ok { order_id := dbC1.nextOrderId, total_amount := orderTotal ois, items := ois } ∧
      (placeOrder (fun _ => true) 1 [⟨7, 3⟩] "Village Road, Pune 411001" "9876543210"
          dbC1).1.orders = dbC1.orders ++
        [{ order_id := dbC1.nextOrderId, user_id := 1, total_amount := orderTotal ois,
           payment_status := .pending, payment_id := none, order_status := .placed,
           delivery_address := "Village Road, Pune 411001", phone := "9876543210" }] ∧
      (placeOrder (fun _ => true) 1 [⟨7, 3⟩] "Village Road, Pune 411001" "9876543210"
          dbC1).1.order_items =
        dbC1.order_items ++ ois.map (toItemRow dbC1.nextOrderId) ∧
      orderTotal ois = (ois.map (fun oi => oi.quantity * oi.price)).sum ∧
      (∀ pid, stockOf (placeOrder (fun _ => true) 1 [⟨7, 3⟩] "Village Road, Pune 411001"
          "9876543210" dbC1).1 pid =
        (stockOf dbC1 pid).map (fun s => s - (qtyFor [⟨7, 3⟩] pid : Int))) :=
  C3_placeOrder_success (fun _ => true) 1 [⟨7, 3⟩] "Village Road, Pune 411001" "9876543210"
    dbC1
    (by
      intro it hit
      simp only [List.mem_singleton] at hit
      subst hit
      exact ⟨⟨7, "Fresh Cow Milk", 60, 5, true⟩, rfl, by decide⟩)
    (fun _ => rfl)

theorem find_append_left {α : Type} (p : α → Bool) (l₁ l₂ : List α) (a : α)
    (h : l₁.find? p = some a) : (l₁ ++ l₂).find? p = some a := by
  rw [List.find?_append, h, Option.or_some]

theorem find_append_right {α : Type} (p : α → Bool) (l₁ l₂ : List α)
    (h : l₁.find? p = none) : (l₁ ++ l₂).find? p = l₂.find? p := by
  rw [List.find?_append, h, Option.none_or]

theorem stockOf_setOrderStatus (oid : Nat) (st : OrderStatus) (db : DB) (pid : Nat) :
    stockOf (setOrderStatus oid st db) pid = stockOf db pid := by
  unfold stockOf
  rw [products_setOrderStatus]

/-- A hit of the order lookup is a member row whose key columns match. -/
theorem findOrder_some (db : DB) (oid uid : Nat) (o : Order)
    (h : findOrder db oid uid = some o) :
    o ∈ db.orders ∧ o.order_id = oid ∧ o.user_id = uid := by
  unfold findOrder at h
  refine ⟨List.mem_of_find?_eq_some h, ?_, ?_⟩
  · have := List.find?_some h
    simp only [Bool.and_eq_true, beq_iff_eq] at this
    exact this.1
  · have := List.find?_some h
    simp only [Bool.and_eq_true, beq_iff_eq] at this
    exact this.2

/-- C5: cancelling an order in state processing, shipped, delivered or
cancelled fails with InvalidState and leaves the state unchanged. -/
theorem C5_cancel_invalid_state :
    ∀ (oid uid : Nat) (db : DB) (o : Order),
    findOrder db oid uid = some o →
    (o.order_status = .processing ∨ o.order_status = .shipped ∨
     o.order_status = .delivered ∨ o.order_status = .cancelled) →
    cancelOrder oid uid db = (db, .error .invalidState) := by
  intro oid uid db o hf hst
  have hns : ¬(o.order_status = .placed ∨ o.order_status = .confirmed) := by
    rcases hst with h | h | h | h <;> rw [h] <;> decide
  simp only [cancelOrder, hf]
  rw [if_neg hns]

/-- Database with a single order stuck in processing. -/
def dbC5 : DB :=
  { products := [{ product_id := 7, name := "Fresh Cow Milk", price := 60, stock := 5,
                   is_active := true }],
    orders := [{ order_id := 1, user_id := 1, total_amount := 180,
                 payment_status := .pending, payment_id := none,
                 order_status := .processing,
                 delivery_address := "Village Road, Pune 411001", phone := "9876543210" }],
    order_items := [{ order_id := 1, product_id := 7, quantity := 3, price := 60 }],
    nextOrderId := 2 }

/-- C5 witness: cancelling the processing order of `dbC5` fails and changes
nothing. -/
theorem C5_witness : cancelOrder 1 1 dbC5 = (dbC5, .error .invalidState) :=
  C5_cancel_invalid_state 1 1 dbC5
    { order_id := 1, user_id := 1, total_amount := 180, payment_status := .pending,
      payment_id := none, order_status := .processing,
      delivery_address := "Village Road, Pune 411001", phone := "9876543210" }
    rfl (Or.inl rfl)

/-- A cancellable order is cancelled: success, every product credited by
exactly the summed quantities of the order's line-item rows, and the
order's status set to cancelled. -/
theorem cancelOrder_credit :
    ∀ (oid uid : Nat) (db : DB) (o : Order),
    findOrder db oid uid = some o →
    (o.order_status = .placed ∨ o.order_status = .confirmed) →
    (cancelOrder oid uid db).2 = .ok () ∧
    (∀ pid, stockOf (cancelOrder oid uid db).1 pid =
      (stockOf db pid).map (fun s => s + (qtyForRows (orderItemsOf db oid) pid : Int))) ∧
    orderStatusOf (cancelOrder oid uid db).1 oid = some .cancelled := by
  intro oid uid db o hf hst
  have hres := cancelOrder_ok oid uid db o hf hst
  refine ⟨by rw [hres], ?_, ?_⟩
  · intro pid
    simp only [hres]
    rw [stockOf_setOrderStatus, stockOf_restoreStock]
  · simp only [hres]
    apply orderStatusOf_setOrderStatus_self
    obtain ⟨hmem, hoid, -⟩ := findOrder_some db oid uid o hf
    rw [orders_restoreStock]
    exact ⟨o, hmem, hoid⟩

/-- placeOrder immediately followed by cancelOrder of the new order
restores every product's stock to its pre-order value. -/
theorem cancel_after_place :
    ∀ (gateway : Nat → Bool) (userId : Nat) (items : List CartItem) (a ph : String) (db : DB),
    (∀ it ∈ items, ∃ p, findActiveProduct db.products it.product_id = some p ∧
        (it.quantity : Int) ≤ p.stock) →
    (∀ n, gateway n = true) →
    (∀ o ∈ db.orders, o.order_id ≠ db.nextOrderId) →
    (∀ oi ∈ db.order_items, oi.order_id ≠ db.nextOrderId) →
    (cancelOrder db.nextOrderId userId (placeOrder gateway userId items a ph db).1).2 =
      .ok () ∧
    (∀ pid, stockOf (cancelOrder db.nextOrderId userId
        (placeOrder gateway userId items a ph db).1).1 pid = stockOf db pid) ∧
    orderStatusOf (cancelOrder db.nextOrderId userId
        (placeOrder gateway userId items a ph db).1).1 db.nextOrderId = some .cancelled := by
  intro gateway userId items a ph db hvalid hgw hfresh hfreshItems
  obtain ⟨ois, hb, hrel⟩ := buildOrderItems_ok_of_valid db.products items hvalid
  have hres := placeOrder_ok gateway userId items a ph db ois hb (hgw _)
  have hdb1 : (placeOrder gateway userId items a ph db).1
      = applyOrderItems db.nextOrderId ois (insertOrder userId (orderTotal ois) a ph db) := by
    rw [hres]
  rw [hdb1]
  generalize hA : applyOrderItems db.nextOrderId ois
      (insertOrder userId (orderTotal ois) a ph db) = A
  have hAorders : A.orders = db.orders ++
      [{ order_id := db.nextOrderId, user_id := userId, total_amount := orderTotal ois,
         payment_status := .pending, payment_id := none, order_status := .placed,
         delivery_address := a, phone := ph }] := by
    rw [← hA, orders_applyOrderItems]
    rfl
  have hAitems : A.order_items = db.order_items ++ ois.map (toItemRow db.nextOrderId) := by
    rw [← hA, order_items_applyOrderItems, order_items_insertOrder]
  have hAstock : ∀ pid, stockOf A pid =
      (stockOf db pid).map (fun s => s - (qtyFor items pid : Int)) := by
    intro pid
    rw [← hA, stockOf_applyOrderItems, stockOf_insertOrder,
      qtyForOI_eq_qtyFor db.products items ois hrel pid]
  have hnone : db.orders.find?
      (fun o => o.order_id == db.nextOrderId && o.user_id == userId) = none := by
    apply List.find?_eq_none.mpr
    intro o ho hcon
    simp only [Bool.and_eq_true, beq_iff_eq] at hcon
    exact hfresh o ho hcon.1
  have hfind : findOrder A db.nextOrderId userId =
      some { order_id := db.nextOrderId, user_id := userId, total_amount := orderTotal ois,
             payment_status := .pending, payment_id := none, order_status := .placed,
             delivery_address := a, phone := ph } := by
    unfold findOrder
    rw [hAorders, find_append_right _ _ _ hnone, List.find?_cons_of_pos _ (by simp)]
  have hitemsOf : orderItemsOf A db.nextOrderId = ois.map (toItemRow db.nextOrderId) := by
    unfold orderItemsOf
    rw [hAitems, List.filter_append]
    have h1 : db.order_items.filter (fun oi => oi.order_id == db.nextOrderId) = [] :=
      List.filter_eq_nil_iff.mpr
        (fun oi hoi hcon => hfreshItems oi hoi (by simpa using hcon))
    have h2 : (ois.map (toItemRow db.nextOrderId)).filter
        (fun oi => oi.order_id == db.nextOrderId) = ois.map (toItemRow db.nextOrderId) := by
      apply List.filter_eq_self.mpr
      intro row hrow
      obtain ⟨oi, hoi, hrow2⟩ := List.mem_map.mp hrow
      rw [← hrow2]
      simp [toItemRow]
    rw [h1, h2, List.nil_append]
  obtain ⟨hok, hstock, hstatus⟩ := cancelOrder_credit db.nextOrderId userId A _ hfind
    (Or.inl rfl)
  refine ⟨hok, ?_, hstatus⟩
  intro pid
  rw [hstock pid, hitemsOf, qtyForRows_map_toItemRow,
    qtyForOI_eq_qtyFor db.products items ois hrel pid, hAstock pid]
  cases hs : stockOf db pid with
  | none => rfl
  | some s =>
    simp only [Option.map_some', Option.some.injEq]
    omega

/-- C4: (i) on any order in state placed or confirmed, cancelOrder succeeds,
credits each product's stock with exactly the summed quantities recorded in
that order's line items (independent of interim stock changes — the credit
is a function of the line-item rows only), and sets order_status=cancelled;
(ii) placeOrder immediately followed by cancelOrder of the created order
restores every product's stock to its pre-order value. -/
theorem C4_cancel_roundtrip :
    (∀ (oid uid : Nat) (db : DB) (o : Order),
      findOrder db oid uid = some o →
      (o.order_status = .placed ∨ o.order_status = .confirmed) →
      (cancelOrder oid uid db).2 = .ok () ∧
      (∀ pid, stockOf (cancelOrder oid uid db).1 pid =
        (stockOf db pid).map (fun s => s + (qtyForRows (orderItemsOf db oid) pid : Int))) ∧
      orderStatusOf (cancelOrder oid uid db).1 oid = some .cancelled) ∧
    (∀ (gateway : Nat → Bool) (userId : Nat) (items : List CartItem) (a ph : String) (db : DB),
      (∀ it ∈ items, ∃ p, findActiveProduct db.products it.product_id = some p ∧
          (it.quantity : Int) ≤ p.stock) →
      (∀ n, gateway n = true) →
      (∀ o ∈ db.orders, o.order_id ≠ db.nextOrderId) →
      (∀ oi ∈ db.order_items, oi.order_id ≠ db.nextOrderId) →
      (cancelOrder db.nextOrderId userId (placeOrder gateway userId items a ph db).1).2 =
        .ok () ∧
      (∀ pid, stockOf (cancelOrder db.nextOrderId userId
          (placeOrder gateway userId items a ph db).1).1 pid = stockOf db pid) ∧
      orderStatusOf (cancelOrder db.nextOrderId userId
          (placeOrder gateway userId items a ph db).1).1 db.nextOrderId = some .cancelled) :=
  ⟨cancelOrder_credit, cancel_after_place⟩

/-- C4 witness: the spec's scenario — order product 7 (stock 5, qty 3),
then cancel while the order is placed: stock returns to 5 and the order is
cancelled. -/
theorem C4_witness :
    (cancelOrder dbC1.nextOrderId 1 (placeOrder (fun _ => true) 1 [⟨7, 3⟩]
        "Village Road, Pune 411001" "9876543210" dbC1).1).2 = .ok () ∧
    (∀ pid, stockOf (cancelOrder dbC1.nextOrderId 1 (placeOrder (fun _ => true) 1 [⟨7, 3⟩]
        "Village Road, Pune 411001" "9876543210" dbC1).1).1 pid = stockOf dbC1 pid) ∧
    orderStatusOf (cancelOrder dbC1.nextOrderId 1 (placeOrder (fun _ => true) 1 [⟨7, 3⟩]
        "Village Road, Pune 411001" "9876543210" dbC1).1).1 dbC1.nextOrderId =
      some .cancelled :=
  C4_cancel_roundtrip.2 (fun _ => true) 1 [⟨7, 3⟩] "Village Road, Pune 411001" "9876543210"
    dbC1
    (by
      intro it hit
      simp only [List.mem_singleton] at hit
      subst hit
      exact ⟨⟨7, "Fresh Cow Milk", 60, 5, true⟩, rfl, by decide⟩)
    (fun _ => rfl)
    (by intro o ho; simp [dbC1] at ho)
    (by intro oi hoi; simp [dbC1] at hoi)

theorem forall2_map_self {α β : Type} (R : α → β → Prop) (g : α → β) (l : List α)
    (h : ∀ x ∈ l, R x (g x)) : List.Forall₂ R l (l.map g) := by
  induction l with
  | nil => exact List.Forall₂.nil
  | cons x t ih =>
    exact List.Forall₂.cons (h x (List.mem_cons_self x t))
      (ih (fun y hy => h y (List.mem_cons_of_mem x hy)))

theorem qtyForRows_eq_zero (rows : List OrderItem) (pid : Nat)
    (h : pid ∉ rows.map (fun oi => oi.product_id)) : qtyForRows rows pid = 0 := by
  induction rows with
  | nil => rfl
  | cons it rest ih =>
    simp only [List.map_cons, List.mem_cons, not_or] at h
    rw [qtyForRows_cons, if_neg (fun hc => h.1 hc.symm), ih h.2]

/-- The restore loop as a single map over the products table: each row's
stock grows by the total quantity the rows list carries for it, and no
other column changes. -/
theorem products_restoreStock (its : List OrderItem) (db : DB) :
    (restoreStock its db).products = db.products.map (fun p =>
      { p with stock := p.stock + (qtyForRows its p.product_id : Int) }) := by
  induction its generalizing db with
  | nil =>
    rw [show restoreStock [] db = db from rfl]
    have hfun : (fun p : Product =>
        { p with stock := p.stock + (qtyForRows [] p.product_id : Int) }) =
        fun p => p := by
      funext p
      simp [qtyForRows]
    rw [hfun, List.map_id']
  | cons it rest ih =>
    rw [restoreStock_cons, ih]
    rw [show (incrementStock it.quantity it.product_id db).products
        = db.products.map (fun p => if p.product_id == it.product_id
            then { p with stock := p.stock + (it.quantity : Int) } else p) from rfl]
    rw [List.map_map]
    apply List.map_congr_left
    intro p hp
    simp only [Function.comp_apply]
    by_cases h : p.product_id = it.product_id
    · have hb : (p.product_id == it.product_id) = true := by simpa using h
      rw [if_pos hb, qtyForRows_cons, if_pos h.symm]
      show ({ p with stock := p.stock + (it.quantity : Int) +
          (qtyForRows rest p.product_id : Int) } : Product) = _
      congr 1
      push_cast
      ring
    · have hb : ¬(p.product_id == it.product_id) = true := by simpa using h
      rw [if_neg hb, qtyForRows_cons, if_neg (fun hc => h hc.symm)]
      congr 1
      push_cast
      ring

/-- C10: on any cancellable order, cancelOrder changes only that order's
order_status and the stock of the products its line items reference: the
order_items table, the id counter, every other column of every order
(payment_status, payment_id, total_amount, delivery_address, phone) and of
every product (id, name, price, is_active), the order_status of every other
order, the stock of every product not referenced by the order's line items,
and the payment_status of every order — in particular a completed payment
stays completed, with no refund recorded. -/
theorem C10_cancel_frame :
    ∀ (oid uid : Nat) (db : DB) (o : Order),
    findOrder db oid uid = some o →
    (o.order_status = .placed ∨ o.order_status = .confirmed) →
    (cancelOrder oid uid db).1.order_items = db.order_items ∧
    (cancelOrder oid uid db).1.nextOrderId = db.nextOrderId ∧
    List.Forall₂ (fun (x y : Order) => y.order_id = x.order_id ∧ y.user_id = x.user_id ∧
        y.payment_status = x.payment_status ∧ y.payment_id = x.payment_id ∧
        y.total_amount = x.total_amount ∧ y.delivery_address = x.delivery_address ∧
        y.phone = x.phone ∧ (x.order_id ≠ oid → y.order_status = x.order_status))
      db.orders (cancelOrder oid uid db).1.orders ∧
    List.Forall₂ (fun (p q : Product) => q.product_id = p.product_id ∧ q.name = p.name ∧
        q.price = p.price ∧ q.is_active = p.is_active ∧
        (p.product_id ∉ (orderItemsOf db oid).map (fun oi => oi.product_id) →
          q.stock = p.stock))
      db.products (cancelOrder oid uid db).1.products ∧
    (∀ oid2, payStatusOf (cancelOrder oid uid db).1 oid2 = payStatusOf db oid2) := by
  intro oid uid db o hf hst
  have hres := cancelOrder_ok oid uid db o hf hst
  have h1 : (cancelOrder oid uid db).1
      = setOrderStatus oid .cancelled (restoreStock (orderItemsOf db oid) db) := by
    rw [hres]
  rw [h1]
  refine ⟨?_, ?_, ?_, ?_, ?_⟩
  · rw [order_items_setOrderStatus, order_items_restoreStock]
  · rw [show (setOrderStatus oid .cancelled (restoreStock (orderItemsOf db oid) db)).nextOrderId
        = (restoreStock (orderItemsOf db oid) db).nextOrderId from rfl,
      nextOrderId_restoreStock]
  · rw [show (setOrderStatus oid .cancelled (restoreStock (orderItemsOf db oid) db)).orders
        = (restoreStock (orderItemsOf db oid) db).orders.map (fun x =>
            if x.order_id == oid then { x with order_status := OrderStatus.cancelled }
            else x) from rfl,
      orders_restoreStock]
    apply forall2_map_self
    intro x hx
    by_cases h : x.order_id = oid
    · have hb : (x.order_id == oid) = true := by simpa using h
      rw [if_pos hb]
      exact ⟨rfl, rfl, rfl, rfl, rfl, rfl, rfl, fun hne => absurd h hne⟩
    · have hb : ¬(x.order_id == oid) = true := by simpa using h
      rw [if_neg hb]
      exact ⟨rfl, rfl, rfl, rfl, rfl, rfl, rfl, fun _ => rfl⟩
  · rw [products_setOrderStatus, products_restoreStock]
    apply forall2_map_self
    intro p hp
    refine ⟨rfl, rfl, rfl, rfl, ?_⟩
    intro hnot
    show p.stock + (qtyForRows (orderItemsOf db oid) p.product_id : Int) = p.stock
    rw [qtyForRows_eq_zero _ _ hnot]
    simp
  · intro oid2
    rw [payStatusOf_setOrderStatus, payStatusOf_restoreStock]

/-- A database holding an already-paid confirmed order for product 7 and an
unrelated product 8; product 7's stock was independently changed to 2. -/
def dbC10 : DB :=
  { products := [{ product_id := 7, name := "Fresh Cow Milk", price := 60, stock := 2,
                   is_active := true },
                 { product_id := 8, name := "Paneer", price := 400, stock := 20,
                   is_active := true }],
    orders := [{ order_id := 1, user_id := 1, total_amount := 180,
                 payment_status := .completed, payment_id := some "pay_123",
                 order_status := .confirmed,
                 delivery_address := "Village Road, Pune 411001", phone := "9876543210" }],
    order_items := [{ order_id := 1, product_id := 7, quantity := 3, price := 60 }],
    nextOrderId := 2 }

/-- C10 witness: cancelling the paid confirmed order of `dbC10` touches only
its order_status and product 7's stock. -/
theorem C10_witness :
    (cancelOrder 1 1 dbC10).1.order_items = dbC10.order_items ∧
    (cancelOrder 1 1 dbC10).1.nextOrderId = dbC10.nextOrderId ∧
    List.Forall₂ (fun (x y : Order) => y.order_id = x.order_id ∧ y.user_id = x.user_id ∧
        y.payment_status = x.payment_status ∧ y.payment_id = x.payment_id ∧
        y.total_amount = x.total_amount ∧ y.delivery_address = x.delivery_address ∧
        y.phone = x.phone ∧ (x.order_id ≠ 1 → y.order_status = x.order_status))
      dbC10.orders (cancelOrder 1 1 dbC10).1.orders ∧
    List.Forall₂ (fun (p q : Product) => q.product_id = p.product_id ∧ q.name = p.name ∧
        q.price = p.price ∧ q.is_active = p.is_active ∧
        (p.product_id ∉ (orderItemsOf dbC10 1).map (fun oi => oi.product_id) →
          q.stock = p.stock))
      dbC10.products (cancelOrder 1 1 dbC10).1.products ∧
    (∀ oid2, payStatusOf (cancelOrder 1 1 dbC10).1 oid2 = payStatusOf dbC10 oid2) :=
  C10_cancel_frame 1 1 dbC10
    { order_id := 1, user_id := 1, total_amount := 180, payment_status := .completed,
      payment_id := some "pay_123", order_status := .confirmed,
      delivery_address := "Village Road, Pune 411001", phone := "9876543210" }
    rfl (Or.inr rfl)

theorem verifyPayment_invalid (hm : String → String → String) (secret : String) (uid : Nat)
    (roid rpid sig : String) (oid : Nat) (db : DB)
    (h : hm secret (verifySignatureBody roid rpid) ≠ sig) :
    verifyPayment hm secret uid roid rpid sig oid db = (db, .invalidSignature) := by
  simp only [verifyPayment]
  rw [if_pos h]

theorem verifyPayment_valid (hm : String → String → String) (secret : String) (uid : Nat)
    (roid rpid sig : String) (oid : Nat) (db : DB)
    (h : hm secret (verifySignatureBody roid rpid) = sig) :
    verifyPayment hm secret uid roid rpid sig oid db =
      (confirmPayment rpid oid uid db, .success) := by
  simp only [verifyPayment]
  rw [if_neg (fun hne => hne h)]

theorem confirmPaymentRow_order_id (rpid : String) (oid uid : Nat) (o : Order) :
    (confirmPaymentRow rpid oid uid o).order_id = o.order_id := by
  unfold confirmPaymentRow
  by_cases hc : (o.order_id == oid && o.user_id == uid) = true <;> simp [hc]

theorem confirmPaymentRow_idem (rpid : String) (oid uid : Nat) (o : Order) :
    confirmPaymentRow rpid oid uid (confirmPaymentRow rpid oid uid o) =
      confirmPaymentRow rpid oid uid o := by
  unfold confirmPaymentRow
  by_cases hc : (o.order_id == oid && o.user_id == uid) = true <;> simp [hc]

/-- The confirmation UPDATE is idempotent on the whole state: applying it a
second time writes the same values. -/
theorem confirmPayment_idem (rpid : String) (oid uid : Nat) (db : DB) :
    confirmPayment rpid oid uid (confirmPayment rpid oid uid db) =
      confirmPayment rpid oid uid db := by
  simp only [confirmPayment]
  congr 1
  rw [List.map_map]
  apply List.map_congr_left
  intro o ho
  simp only [Function.comp_apply]
  exact confirmPaymentRow_idem rpid oid uid o

/-- C6: with a valid signature, verifyPayment reports success, and a second
call with the same arguments is a no-op update: it reproduces exactly the
state of the first call and again reports success rather than erroring. -/
theorem C6_verify_idempotent :
    ∀ (hm : String → String → String) (secret : String) (uid : Nat)
      (roid rpid sig : String) (oid : Nat) (db : DB),
    sig = hm secret (verifySignatureBody roid rpid) →
    (verifyPayment hm secret uid roid rpid sig oid db).2 = .success ∧
    verifyPayment hm secret uid roid rpid sig oid
        (verifyPayment hm secret uid roid rpid sig oid db).1 =
      ((verifyPayment hm secret uid roid rpid sig oid db).1, .success) := by
  intro hm secret uid roid rpid sig oid db h
  have hv := verifyPayment_valid hm secret uid roid rpid sig oid db h.symm
  refine ⟨by rw [hv], ?_⟩
  simp only [hv]
  rw [verifyPayment_valid hm secret uid roid rpid sig oid _ h.symm,
    confirmPayment_idem]

/-- A database holding a pending placed order awaiting payment. -/
def dbC6 : DB :=
  { products := [{ product_id := 7, name := "Fresh Cow Milk", price := 60, stock := 2,
                   is_active := true }],
    orders := [{ order_id := 1, user_id := 1, total_amount := 180,
                 payment_status := .pending, payment_id := none, order_status := .placed,
                 delivery_address := "Village Road, Pune 411001", phone := "9876543210" }],
    order_items := [{ order_id := 1, product_id := 7, quantity := 3, price := 60 }],
    nextOrderId := 2 }

/-- C6 witness: a concrete valid callback verified twice. -/
theorem C6_witness :
    (verifyPayment (fun s m => s ++ m) "secret" 1 "order_x" "pay_y" "secretorder_x|pay_y" 1
        dbC6).2 = .success ∧
    verifyPayment (fun s m => s ++ m) "secret" 1 "order_x" "pay_y" "secretorder_x|pay_y" 1
        (verifyPayment (fun s m => s ++ m) "secret" 1 "order_x" "pay_y" "secretorder_x|pay_y"
          1 dbC6).1 =
      ((verifyPayment (fun s m => s ++ m) "secret" 1 "order_x" "pay_y" "secretorder_x|pay_y"
          1 dbC6).1, .success) :=
  C6_verify_idempotent (fun s m => s ++ m) "secret" 1 "order_x" "pay_y" "secretorder_x|pay_y"
    1 dbC6 rfl

/-- C7: when the provided signature differs from the HMAC the handler
recomputes over `razorpay_order_id + '|' + razorpay_payment_id`,
verifyPayment fails with InvalidSignature and the state is returned
untouched: every order keeps its payment_status and order_status. -/
theorem C7_invalid_signature_no_change :
    ∀ (hm : String → String → String) (secret : String) (uid : Nat)
      (roid rpid sig : String) (oid : Nat) (db : DB),
    sig ≠ hm secret (verifySignatureBody roid rpid) →
    verifyPayment hm secret uid roid rpid sig oid db = (db, .invalidSignature) ∧
    (∀ oid2, payStatusOf (verifyPayment hm secret uid roid rpid sig oid db).1 oid2 =
      payStatusOf db oid2) ∧
    (∀ oid2, orderStatusOf (verifyPayment hm secret uid roid rpid sig oid db).1 oid2 =
      orderStatusOf db oid2) := by
  intro hm secret uid roid rpid sig oid db h
  have hv := verifyPayment_invalid hm secret uid roid rpid sig oid db (fun he => h he.symm)
  exact ⟨hv, fun oid2 => by rw [hv], fun oid2 => by rw [hv]⟩

/-- C7 witness: a concrete tampered callback is rejected and changes
nothing. -/
theorem C7_witness :
    verifyPayment (fun s m => s ++ m) "secret" 1 "order_x" "pay_y" "tampered" 1 dbC6 =
      (dbC6, .invalidSignature) ∧
    (∀ oid2, payStatusOf (verifyPayment (fun s m => s ++ m) "secret" 1 "order_x" "pay_y"
        "tampered" 1 dbC6).1 oid2 = payStatusOf dbC6 oid2) ∧
    (∀ oid2, orderStatusOf (verifyPayment (fun s m => s ++ m) "secret" 1 "order_x" "pay_y"
        "tampered" 1 dbC6).1 oid2 = orderStatusOf dbC6 oid2) :=
  C7_invalid_signature_no_change (fun s m => s ++ m) "secret" 1 "order_x" "pay_y" "tampered"
    1 dbC6 (by decide)

/-- C9 (implicit): a valid-signature callback whose orderId/userId pair
matches no order row still reports success — the ownership-scoped update
affects zero rows, the state is unchanged, and no OrderNotFound-style error
is returned. -/
theorem C9_verify_unknown_order_success :
    ∀ (hm : String → String → String) (secret : String) (uid : Nat)
      (roid rpid sig : String) (oid : Nat) (db : DB),
    sig = hm secret (verifySignatureBody roid rpid) →
    (∀ o ∈ db.orders, ¬(o.order_id = oid ∧ o.user_id = uid)) →
    verifyPayment hm secret uid roid rpid sig oid db = (db, .success) := by
  intro hm secret uid roid rpid sig oid db h hno
  rw [verifyPayment_valid hm secret uid roid rpid sig oid db h.symm]
  have hmap : db.orders.map (confirmPaymentRow rpid oid uid) = db.orders := by
    have hcong : db.orders.map (confirmPaymentRow rpid oid uid) =
        db.orders.map (fun o => o) :=
      List.map_congr_left (fun o ho => by
        unfold confirmPaymentRow
        rw [if_neg (fun hc => hno o ho (by simpa using hc))])
    rw [hcong, List.map_id']
  show (confirmPayment rpid oid uid db, VerifyResult.success) = (db, VerifyResult.success)
  unfold confirmPayment
  rw [hmap]

/-- C9 witness: a valid callback for order 99, which no row matches, still
succeeds on `dbC6` and leaves it unchanged. -/
theorem C9_witness :
    verifyPayment (fun s m => s ++ m) "secret" 1 "order_x" "pay_y" "secretorder_x|pay_y" 99
      dbC6 = (dbC6, .success) :=
  C9_verify_unknown_order_success (fun s m => s ++ m) "secret" 1 "order_x" "pay_y"
    "secretorder_x|pay_y" 99 dbC6 rfl
    (by intro o ho hcon; simp [dbC6] at ho; rw [ho] at hcon; exact absurd hcon.1 (by decide))

/-- One request handled by the order core: any placeOrder, verifyPayment,
cancelOrder or admin status update, with arbitrary arguments. -/
inductive Step : DB → DB → Prop where
  | place (gateway : Nat → Bool) (userId : Nat) (items : List CartItem) (a ph : String)
      (db : DB) : Step db (placeOrder gateway userId items a ph db).1
  | verify (hm : String → String → String) (secret : String) (userId : Nat)
      (roid rpid sig : String) (orderId : Nat) (db : DB) :
      Step db (verifyPayment hm secret userId roid rpid sig orderId db).1
  | cancel (orderId userId : Nat) (db : DB) : Step db (cancelOrder orderId userId db).1
  | admin (orderId : Nat) (st : OrderStatus) (db : DB) :
      Step db (adminUpdateStatus orderId st db).1

/-- Every order's payment_status is pending or completed — the statuses the
core can actually produce ('failed' and 'refunded' exist in the ENUM but no
handler writes them). -/
def PayInv (db : DB) : Prop :=
  ∀ o ∈ db.orders, o.payment_status = .pending ∨ o.payment_status = .completed

theorem payStatusOf_mem (db : DB) (oid : Nat) (s : PaymentStatus)
    (h : payStatusOf db oid = some s) : ∃ r ∈ db.orders, r.payment_status = s := by
  unfold payStatusOf at h
  obtain ⟨r, hr, hrs⟩ := Option.map_eq_some'.mp h
  exact ⟨r, List.mem_of_find?_eq_some hr, hrs⟩

/-- The committed state of placeOrder either keeps the orders table or
appends one new pending, placed order. -/
theorem placeOrder_orders_cases (gateway : Nat → Bool) (userId : Nat)
    (items : List CartItem) (a ph : String) (db : DB) :
    (placeOrder gateway userId items a ph db).1.orders = db.orders ∨
    ∃ t, (placeOrder gateway userId items a ph db).1.orders = db.orders ++
      [{ order_id := db.nextOrderId, user_id := userId, total_amount := t,
         payment_status := .pending, payment_id := none, order_status := .placed,
         delivery_address := a, phone := ph }] := by
  cases hb : buildOrderItems db.products items with
  | error e =>
    left
    simp only [placeOrder, hb]
  | ok ois =>
    by_cases hg : gateway (orderTotal ois) = true
    · right
      refine ⟨orderTotal ois, ?_⟩
      simp only [placeOrder_ok gateway userId items a ph db ois hb hg,
        orders_applyOrderItems]
      rfl
    · left
      simp only [placeOrder, hb]
      rw [if_neg hg]

/-- The committed state of cancelOrder is either unchanged or the
stock-restore plus status write. -/
theorem cancelOrder_db_cases (oid uid : Nat) (db : DB) :
    (cancelOrder oid uid db).1 = db ∨
    (cancelOrder oid uid db).1 =
      setOrderStatus oid .cancelled (restoreStock (orderItemsOf db oid) db) := by
  cases hfo : findOrder db oid uid with
  | none =>
    left
    simp only [cancelOrder, hfo]
  | some o =>
    by_cases hst : o.order_status = .placed ∨ o.order_status = .confirmed
    · right
      rw [cancelOrder_ok oid uid db o hfo hst]
    · left
      simp only [cancelOrder, hfo]
      rw [if_neg hst]

/-- The confirmation UPDATE can only keep an order's payment_status or set
it to completed. -/
theorem payStatusOf_confirmPayment (rpid : String) (oid0 uid : Nat) (db : DB)
    (oid : Nat) (s : PaymentStatus) (h : payStatusOf db oid = some s) :
    payStatusOf (confirmPayment rpid oid0 uid db) oid = some s ∨
    payStatusOf (confirmPayment rpid oid0 uid db) oid = some .completed := by
  unfold payStatusOf at h ⊢
  unfold confirmPayment
  rw [show ({ db with orders := db.orders.map (confirmPaymentRow rpid oid0 uid) } : DB).orders
      = db.orders.map (confirmPaymentRow rpid oid0 uid) from rfl,
    find_map_orderkey _ (confirmPaymentRow_order_id rpid oid0 uid)]
  obtain ⟨r, hr, hrs⟩ := Option.map_eq_some'.mp h
  rw [hr]
  by_cases hc : (r.order_id == oid0 && r.user_id == uid) = true
  · right
    simp only [Option.map_some']
    unfold confirmPaymentRow
    rw [if_pos hc]
  · left
    simp only [Option.map_some']
    unfold confirmPaymentRow
    rw [if_neg hc, hrs]

/-- Every core operation either keeps an order's payment_status or writes
completed. -/
theorem step_pay (db db' : DB) (hstep : Step db db') (oid : Nat) (s : PaymentStatus)
    (h : payStatusOf db oid = some s) :
    payStatusOf db' oid = some s ∨ payStatusOf db' oid = some .completed := by
  cases hstep with
  | place gateway userId items a ph =>
    rcases placeOrder_orders_cases gateway userId items a ph db with hor | ⟨t, hor⟩
    · left
      unfold payStatusOf at h ⊢
      rw [hor]
      exact h
    · left
      unfold payStatusOf at h ⊢
      obtain ⟨r, hr, hrs⟩ := Option.map_eq_some'.mp h
      rw [hor, find_append_left _ _ _ _ hr, Option.map_some', hrs]
  | verify hm secret userId roid rpid sig orderId =>
    by_cases hsig : hm secret (verifySignatureBody roid rpid) ≠ sig
    · left
      rw [verifyPayment_invalid hm secret userId roid rpid sig orderId db hsig]
      exact h
    · push_neg at hsig
      rw [verifyPayment_valid hm secret userId roid rpid sig orderId db hsig]
      exact payStatusOf_confirmPayment rpid orderId userId db oid s h
  | cancel orderId userId =>
    rcases cancelOrder_db_cases orderId userId db with hc | hc
    · left
      rw [hc]
      exact h
    · left
      rw [hc, payStatusOf_setOrderStatus, payStatusOf_restoreStock]
      exact h
  | admin orderId st =>
    left
    rw [show (adminUpdateStatus orderId st db).1 = setOrderStatus orderId st db from rfl,
      payStatusOf_setOrderStatus]
    exact h

theorem payInv_setOrderStatus (oid : Nat) (st : OrderStatus) (db : DB)
    (hinv : PayInv db) : PayInv (setOrderStatus oid st db) := by
  intro o' ho'
  rw [show (setOrderStatus oid st db).orders = db.orders.map (fun o =>
      if o.order_id == oid then { o with order_status := st } else o) from rfl] at ho'
  obtain ⟨o, ho, hoeq⟩ := List.mem_map.mp ho'
  by_cases hc : (o.order_id == oid) = true
  · rw [← hoeq, if_pos hc]
    exact hinv o ho
  · rw [← hoeq, if_neg hc]
    exact hinv o ho

/-- Every core operation preserves the payment-status invariant. -/
theorem step_inv (db db' : DB) (hstep : Step db db') (hinv : PayInv db) : PayInv db' := by
  cases hstep with
  | place gateway userId items a ph =>
    rcases placeOrder_orders_cases gateway userId items a ph db with hor | ⟨t, hor⟩
    · intro o' ho'
      rw [hor] at ho'
      exact hinv o' ho'
    · intro o' ho'
      rw [hor] at ho'
      rcases List.mem_append.mp ho' with hold | hnew
      · exact hinv o' hold
      · rw [List.mem_singleton.mp hnew]
        left
        rfl
  | verify hm secret userId roid rpid sig orderId =>
    by_cases hsig : hm secret (verifySignatureBody roid rpid) ≠ sig
    · rw [verifyPayment_invalid hm secret userId roid rpid sig orderId db hsig]
      exact hinv
    · push_neg at hsig
      rw [verifyPayment_valid hm secret userId roid rpid sig orderId db hsig]
      intro o' ho'
      rw [show (confirmPayment rpid orderId userId db).orders
          = db.orders.map (confirmPaymentRow rpid orderId userId) from rfl] at ho'
      obtain ⟨o, ho, hoeq⟩ := List.mem_map.mp ho'
      by_cases hc : (o.order_id == orderId && o.user_id == userId) = true
      · right
        rw [← hoeq]
        unfold confirmPaymentRow
        rw [if_pos hc]
      · rw [← hoeq]
        unfold confirmPaymentRow
        rw [if_neg hc]
        exact hinv o ho
  | cancel orderId userId =>
    rcases cancelOrder_db_cases orderId userId db with hc | hc
    · rw [hc]
      exact hinv
    · rw [hc]
      apply payInv_setOrderStatus
      intro o' ho'
      rw [orders_restoreStock] at ho'
      exact hinv o' ho'
  | admin orderId st =>
    rw [show (adminUpdateStatus orderId st db).1 = setOrderStatus orderId st db from rfl]
    exact payInv_setOrderStatus orderId st db hinv

theorem reach_inv (db0 db : DB) (h0 : PayInv db0)
    (hr : Relation.ReflTransGen Step db0 db) : PayInv db := by
  induction hr with
  | refl => exact h0
  | tail h1 h2 ih => exact step_inv _ _ h2 ih

/-- C8: in every state reachable by the core operations from a state whose
orders are all pending or completed (in particular any state the core built
itself), a single further operation can change an order's payment_status
only from pending, only to a member of {completed, failed} (concretely the
code only ever writes completed), and a completed payment_status never
changes again. -/
theorem C8_payment_status_machine :
    ∀ (db0 db db' : DB), PayInv db0 → Relation.ReflTransGen Step db0 db → Step db db' →
    ∀ (oid : Nat) (s sNew : PaymentStatus),
      payStatusOf db oid = some s → payStatusOf db' oid = some sNew →
      (s = .completed → sNew = .completed) ∧
      (sNew ≠ s → s = .pending ∧ (sNew = .completed ∨ sNew = .failed)) := by
  intro db0 db db' hinv0 hreach hstep oid s sNew hs hsNew
  have hinv : PayInv db := reach_inv db0 db hinv0 hreach
  rcases step_pay db db' hstep oid s hs with h | h
  · rw [hsNew] at h
    have heq : sNew = s := Option.some.inj h
    exact ⟨fun hc => heq.trans hc, fun hne => absurd heq hne⟩
  · rw [hsNew] at h
    have hc : sNew = .completed := Option.some.inj h
    refine ⟨fun _ => hc, fun hne => ?_⟩
    obtain ⟨r, hrmem, hrs⟩ := payStatusOf_mem db oid s hs
    rcases hinv r hrmem with hp | hcmp
    · exact ⟨hrs ▸ hp, Or.inl hc⟩
    · exact absurd (hc.trans (hrs ▸ hcmp).symm) hne

/-- C8 witness: verifying the pending order of `dbC6` moves its
payment_status pending → completed, matching the machine. -/
theorem C8_witness :
    payStatusOf dbC6 1 = some .pending ∧
    payStatusOf (verifyPayment (fun s m => s ++ m) "secret" 1 "order_x" "pay_y"
        "secretorder_x|pay_y" 1 dbC6).1 1 = some .completed ∧
    ((PaymentStatus.pending = .completed → PaymentStatus.completed = .completed) ∧
     (PaymentStatus.completed ≠ PaymentStatus.pending → PaymentStatus.pending = .pending ∧
       (PaymentStatus.completed = .completed ∨ PaymentStatus.completed = .failed))) :=
  ⟨rfl, by decide,
    C8_payment_status_machine dbC6 dbC6
      (verifyPayment (fun s m => s ++ m) "secret" 1 "order_x" "pay_y" "secretorder_x|pay_y"
        1 dbC6).1
      (by
        intro o ho
        rw [List.mem_singleton.mp ho]
        left
        rfl)
      Relation.ReflTransGen.refl
      (Step.verify (fun s m => s ++ m) "secret" 1 "order_x" "pay_y" "secretorder_x|pay_y"
        1 dbC6)
      1 .pending .completed rfl (by decide)⟩

end DairyFarm
